import Mathlib

set_option maxRecDepth 8192

/-!
Shallow embedding of the `agent-loop` session-orchestration core
(`src/index.ts` two-phase variant and the three-phase variant file).

Conventions of the embedding:
* Filesystem state observed by the core is a `DiskState`: the raw content of
  `feature_list.json` when the file exists (`none` = `existsSync` false), and
  the existence bit of `plan.md`.
* `JSON.parse` is an external library call; it is threaded through as an
  oracle `parseFL : String → Option FeatureList` (for the feature-list read)
  and `jsonParse : String → Option Json` (for the cosmetic tool-result
  unwrap).  `none` models a parse that throws, caught by the surrounding
  `try`/`catch`.
* `console.log` / `console.error` / `process.stdout.write` output is
  collected as `List String` log lines; picocolors / ANSI color wrappers are
  dropped (they do not change the logical text).
* JS numbers reaching the loop bound come from `parseInt` and are therefore
  either an integer or `NaN`; they are modelled by `JsNum`.
-/

/-- One entry of `feature_list.json` (interface `FeatureList` in the source). -/
structure Feature where
  category : String
  description : String
  steps : List String
  passes : Bool
  priority : Nat
deriving DecidableEq, Repr

/-- The parsed `feature_list.json` document. -/
structure FeatureList where
  features : List Feature
deriving DecidableEq, Repr

/-- `type AgentPhase = "initializer" | "planner" | "coder"`. -/
inductive AgentPhase
  | initializer
  | planner
  | coder
deriving DecidableEq, Repr

/-- The on-disk state the core probes: content of `feature_list.json`
(`none` when `existsSync` is false) and existence of `plan.md`. -/
structure DiskState where
  featureFileContent : Option String
  planMd : Bool
deriving DecidableEq, Repr

/-- `readFeatureList(dir)`: absent file gives `null`; present file content is
fed to `JSON.parse` and a parse exception is caught, logging
"Failed to parse feature_list.json" and returning `null`.  Returns the value
together with the `console.error` lines it printed. -/
def readFeatureList (parseFL : String → Option FeatureList) (d : DiskState) :
    Option FeatureList × List String :=
  match d.featureFileContent with
  | none => (none, [])
  | some content =>
    match parseFL content with
    | some fl => (some fl, [])
    | none => (none, ["Failed to parse feature_list.json"])

/-- `planExists(dir)`. -/
def planExists (d : DiskState) : Bool :=
  d.planMd

/-- `getProgress(features)`: `total` is the feature count, `passing` the
count of features with `passes` true. -/
structure Progress where
  passing : Nat
  total : Nat
deriving DecidableEq, Repr

def getProgress (features : FeatureList) : Progress :=
  { total := features.features.length
    passing := (features.features.filter (fun f => f.passes)).length }

/-- `determinePhase(dir)` of the three-phase variant: no (valid) feature list
gives `initializer`; with a feature list, `plan.md` existing gives `coder`,
otherwise `planner`. -/
def determinePhase (parseFL : String → Option FeatureList) (d : DiskState) :
    AgentPhase :=
  match (readFeatureList parseFL d).fst with
  | none => AgentPhase.initializer
  | some _ =>
    if planExists d then AgentPhase.coder else AgentPhase.planner

/-- Phase selection inlined in `main` of the two-phase variant
(`src/index.ts` lines 160-170): `featureList === null` runs the initializer
prompt, otherwise the coder prompt. -/
def determinePhaseTwoPhase (parseFL : String → Option FeatureList)
    (d : DiskState) : AgentPhase :=
  match (readFeatureList parseFL d).fst with
  | none => AgentPhase.initializer
  | some _ => AgentPhase.coder

/-- JSON values, the result type of a successful `JSON.parse`. -/
inductive Json
  | null
  | bool (b : Bool)
  | num (n : Int)
  | str (s : String)
  | arr (elems : List Json)
  | obj (fields : List (String × Json))

/-- JS property access `j.key`: `some` when `j` is an object carrying the
key, `none` for JS `undefined`. -/
def Json.getField (j : Json) (key : String) : Option Json :=
  match j with
  | .obj fields => fields.lookup key
  | _ => none

/-- JS truthiness of a JSON value. -/
def Json.truthy : Json → Bool
  | .null => false
  | .bool b => b
  | .num n => n != 0
  | .str s => s != ""
  | .arr _ => true
  | .obj _ => true

/-- JS `String(v)` coercion of a JSON value, as applied by `JSON.parse` to a
non-string argument.  Plain objects stringify to "[object Object]"; arrays
join their members -- only the string case matters to every claim proved
below, the rest is a best-effort rendering. -/
def Json.jsString : Json → String
  | .null => "null"
  | .bool b => cond b "true" "false"
  | .num n => toString n
  | .str s => s
  | .arr _ => ""
  | .obj _ => "[object Object]"

/-- JS `v || "(empty)"`: the displayed form of `inner.output`, substituting
the literal "(empty)" when the value is falsy. -/
def jsOrEmpty (v : Json) : String :=
  if v.truthy then v.jsString else "(empty)"

/-- `pat` occurs as a contiguous substring of `s` (JS `s.includes(pat)`). -/
def containsSubstr (s pat : String) : Bool :=
  (List.range (s.data.length + 1)).any (fun i => pat.data.isPrefixOf (s.data.drop i))

/-- The `else if (parsed.output !== undefined)` arm of the unwrap. -/
def unwrapDirect (parsed : Json) (resultStr : String) : String :=
  match parsed.getField "output" with
  | some ov => jsOrEmpty ov
  | none => resultStr

/-- The `[  \x7btype:"text", text:"..."\x7d ]` arm: `JSON.parse(parsed[0].text)`
(a throw is caught, keeping the original), then replace when
`inner.output !== undefined`. -/
def unwrapArrayText (jsonParse : String → Option Json) (resultStr : String)
    (t : Json) : String :=
  match jsonParse t.jsString with
  | none => resultStr
  | some inner =>
    match inner.getField "output" with
    | some ov => jsOrEmpty ov
    | none => resultStr

/-- Dispatch on the parsed outer value: `Array.isArray(parsed) &&
parsed[0]?.text` selects the array arm, everything else falls to the
`else if (parsed.output !== undefined)` arm. -/
def unwrapParsed (jsonParse : String → Option Json) (resultStr : String)
    (parsed : Json) : String :=
  match parsed with
  | .arr (first :: _) =>
    match first.getField "text" with
    | some t =>
      if t.truthy then unwrapArrayText jsonParse resultStr t
      else unwrapDirect parsed resultStr
    | none => unwrapDirect parsed resultStr
  | _ => unwrapDirect parsed resultStr

/-- The best-effort nushell tool-result unwrap (`runAgent`, `user` branch,
three-phase variant lines 245-261).  Guarded by the two `includes` probes;
`JSON.parse` failures (`none` from the oracle) are swallowed by the
enclosing `catch`, keeping the original string.  The array arm fires on any
nonempty array whose first element has a truthy `text` property
(`parsed[0]?.text`). -/
def unwrapToolResult (jsonParse : String → Option Json) (resultStr : String) :
    String :=
  if containsSubstr resultStr "\x22output\x22" || containsSubstr resultStr "output:" then
    match jsonParse resultStr with
    | none => resultStr
    | some parsed => unwrapParsed jsonParse resultStr parsed
  else resultStr

/-- `str.length > cap ? str.slice(0, cap) + "..." : str`, the display
truncation applied to tool inputs (cap 200) and tool results (cap 500 or
2000 by verbosity). -/
def truncateDisplay (cap : Nat) (s : String) : String :=
  if s.length > cap then String.mk (s.data.take cap) ++ "..." else s

/-- `const maxLen = verbose ? 2000 : 500` for the tool-result display. -/
def resultDisplayCap (verbose : Bool) : Nat :=
  if verbose then 2000 else 500

/-- Content blocks of an `assistant` SDK message. -/
inductive ContentBlock
  | text (t : String)
  | toolUse (name : String) (inputJson : String)
  | otherBlock
deriving DecidableEq, Repr

/-- Content blocks of a `user` SDK message; `toolResult` carries the result
content already flattened to a string (the source applies `JSON.stringify`
when the content is not a string). -/
inductive UserContentBlock
  | toolResult (resultStr : String)
  | otherBlock
deriving DecidableEq, Repr

/-- The tagged SDK events consumed by `runAgent`'s `switch`.  `result`
events carry `num_turns`, a preformatted cost figure, and the optional
`errors` list (`none` models `"errors" in message` being false). -/
inductive SdkMessage
  | system (subtype : String) (sessionId : String) (model : String) (toolCount : Nat)
  | assistant (content : List ContentBlock)
  | user (content : List UserContentBlock)
  | result (subtype : String) (numTurns : Nat) (costUsd : String) (errors : Option (List String))
  | toolProgress (toolName : String) (elapsed : String)
  | streamEvent (eventType : String)
deriving DecidableEq, Repr

/-- The `type` tag the verbose `[message]` line prints. -/
def SdkMessage.typeTag : SdkMessage → String
  | .system _ _ _ _ => "system"
  | .assistant _ => "assistant"
  | .user _ => "user"
  | .result _ _ _ _ => "result"
  | .toolProgress _ _ => "tool_progress"
  | .streamEvent _ => "stream_event"

/-- ` subtype=...` suffix of the verbose `[message]` line
(`"subtype" in message`). -/
def SdkMessage.subtypeSuffix : SdkMessage → String
  | .system st _ _ _ => " subtype=" ++ st
  | .result st _ _ _ => " subtype=" ++ st
  | _ => ""

/-- Lines printed for one `assistant` content block: text blocks are
streamed verbatim, `tool_use` blocks display `[tool] name` with the
stringified input truncated at 200. -/
def renderAssistantBlock : ContentBlock → List String
  | .text t => [t]
  | .toolUse name inputJson =>
    ["[tool] " ++ name ++ " " ++ truncateDisplay 200 inputJson]
  | .otherBlock => []

/-- Lines printed for one `user` content block: `tool_result` content is
passed through the cosmetic unwrap then truncated at the verbosity cap. -/
def renderUserBlock (jsonParse : String → Option Json) (verbose : Bool) :
    UserContentBlock → List String
  | .toolResult resultStr =>
    [truncateDisplay (resultDisplayCap verbose) (unwrapToolResult jsonParse resultStr)]
  | .otherBlock => []

/-- The body of `runAgent`'s per-event `switch` (three-phase variant lines
204-295), as the list of lines printed for one event. -/
def handleMessage (jsonParse : String → Option Json) (verbose : Bool)
    (m : SdkMessage) : List String :=
  (if verbose then ["[message] type=" ++ m.typeTag ++ m.subtypeSuffix] else []) ++
  match m with
  | .system subtype sessionId model toolCount =>
    if subtype = "init" then
      ["[system] Session " ++ sessionId ++ " initialized",
       "[system] Model: " ++ model ++ ", Tools: " ++ toString toolCount]
    else if verbose then ["[system] " ++ subtype] else []
  | .assistant content => content.flatMap renderAssistantBlock
  | .user content => content.flatMap (renderUserBlock jsonParse verbose)
  | .result subtype numTurns costUsd errors =>
    if subtype = "success" then
      ["[result] Success - " ++ toString numTurns ++ " turns, $" ++ costUsd]
    else
      ("[result] Error: " ++ subtype) ::
        (errors.getD []).map (fun err => "  " ++ err)
  | .toolProgress toolName elapsed =>
    if verbose then ["[progress] " ++ toolName ++ " (" ++ elapsed ++ "s)"] else []
  | .streamEvent eventType =>
    if verbose then ["[stream] " ++ eventType] else []

/-- A JS exception escaping the stream: message plus optional stack. -/
structure JsError where
  message : String
  stack : Option String
deriving DecidableEq, Repr

/-- `runAgent(prompt, cwd, model, verbose)`.  The lazy event stream is
modelled as the events delivered before the stream either ends naturally
(`thrown = none`) or raises (`thrown = some e`).  Returns the boolean the
orchestrator acts on, together with the printed transcript. -/
def runAgent (jsonParse : String → Option Json) (events : List SdkMessage)
    (thrown : Option JsError) (verbose : Bool) : Bool × List String :=
  let body := events.flatMap (handleMessage jsonParse verbose)
  match thrown with
  | none =>
    (true, "--- Agent session starting ---" :: body ++ ["--- Agent session ended ---"])
  | some e =>
    (false,
      "--- Agent session starting ---" :: body ++
        ["--- Agent session failed ---", "Error: " ++ e.message] ++
        (match e.stack with
         | some st => if verbose then ["Stack: " ++ st] else []
         | none => []))

/-- A JS number as produced by `parseInt`: an integer or `NaN`. -/
inductive JsNum
  | nan
  | int (n : Int)
deriving DecidableEq, Repr

/-- Digits to a natural number, most significant first. -/
def digitsToNat (ds : List Char) : Nat :=
  ds.foldl (fun acc c => acc * 10 + (c.toNat - '0'.toNat)) 0

/-- JS `parseInt(s, 10)`: skip leading whitespace, take an optional sign and
the longest digit run; `NaN` when no digit is found.  This is what
`parseCliArgs` applies to the `--max-sessions` option. -/
def parseIntJs (s : String) : JsNum :=
  let chars := s.data.dropWhile (fun c => c.isWhitespace)
  let signed : Int × List Char :=
    match chars with
    | '-' :: rest => (-1, rest)
    | '+' :: rest => (1, rest)
    | rest => (1, rest)
  let ds := signed.snd.takeWhile (fun c => c.isDigit)
  if ds.isEmpty then JsNum.nan
  else JsNum.int (signed.fst * (digitsToNat ds : Int))

/-- The loop guard `session <= options.maxSessions` under JS comparison
semantics: any comparison against `NaN` is false. -/
def jsLe (session : Nat) (maxSessions : JsNum) : Bool :=
  match maxSessions with
  | .nan => false
  | .int n => (session : Int) ≤ n

/-- Observable effects of the tail of one orchestrator loop iteration
(three-phase `main`, lines 340-362), after `runAgent` returned `success`:
the retry notice, the progress line (when re-read), the completion
announcement and notification, the pause performed in milliseconds (0 when
the loop `break`s, which skips both sleeps), and whether the loop breaks. -/
structure IterOut where
  retryNotice : Bool
  progressLine : Option Progress
  completionAnnounced : Bool
  notified : Bool
  pauseMs : Nat
  breakLoop : Bool
deriving DecidableEq, Repr

/-- The post-session tail of one loop iteration: on failure, retry notice
and the 5000 ms backoff, then `continue` (progress never re-read); on
success, re-read the feature list, print progress when present, and
complete (announce + notify + `break`) exactly when `passing === total`;
otherwise the 2000 ms pacing pause. -/
def sessionStep (parseFL : String → Option FeatureList) (success : Bool)
    (dAfter : DiskState) : IterOut :=
  if success = false then
    { retryNotice := true, progressLine := none, completionAnnounced := false,
      notified := false, pauseMs := 5000, breakLoop := false }
  else
    match (readFeatureList parseFL dAfter).fst with
    | none =>
      { retryNotice := false, progressLine := none, completionAnnounced := false,
        notified := false, pauseMs := 2000, breakLoop := false }
    | some fl =>
      let p := getProgress fl
      if p.passing = p.total then
        { retryNotice := false, progressLine := some p, completionAnnounced := true,
          notified := true, pauseMs := 0, breakLoop := true }
      else
        { retryNotice := false, progressLine := some p, completionAnnounced := false,
          notified := false, pauseMs := 2000, breakLoop := false }

/-- One session as recorded by a run of the loop: its 1-based index, the
phase resolved before it, the classifier outcome, and the iteration tail. -/
structure SessionRecord where
  session : Nat
  phase : AgentPhase
  success : Bool
  outcome : IterOut
deriving DecidableEq, Repr

/-- The environment one session interacts with: the disk state
`determinePhase` probes before the session, the `runAgent` outcome, and the
disk state re-probed after the session (the agent may have changed it
arbitrarily). -/
def SessionEnv := Nat → DiskState × Bool × DiskState

/-- The orchestrator `for` loop (`for (let session = 1; session <=
maxSessions; session++)`), fuel-indexed; the JS guard `jsLe` is checked
each iteration, a `breakLoop` outcome stops the recursion. -/
def mainLoopGo (parseFL : String → Option FeatureList) (maxSessions : JsNum)
    (env : SessionEnv) : Nat → Nat → List SessionRecord
  | 0, _ => []
  | fuel + 1, n =>
    if jsLe n maxSessions then
      match env n with
      | (dBefore, success, dAfter) =>
        let r : SessionRecord :=
          { session := n, phase := determinePhase parseFL dBefore,
            success := success, outcome := sessionStep parseFL success dAfter }
        if r.outcome.breakLoop then [r]
        else r :: mainLoopGo parseFL maxSessions env fuel (n + 1)
    else []

/-- Fuel sufficient for the whole loop: `maxSessions` iterations (0 for
`NaN` or a nonpositive bound, where the guard is false at `session = 1`). -/
def loopFuel : JsNum → Nat
  | .nan => 0
  | .int n => n.toNat

/-- The session loop of `main`, sessions numbered from 1. -/
def mainLoop (parseFL : String → Option FeatureList) (maxSessions : JsNum)
    (env : SessionEnv) : List SessionRecord :=
  mainLoopGo parseFL maxSessions env (loopFuel maxSessions) 1

/-- `main()` after argument parsing: when the working directory does not
exist the process exits with status 1 before any session (`none`);
otherwise it prints the start banner, runs the loop, prints the finish
banner and returns normally (`some` run). -/
def mainModel (parseFL : String → Option FeatureList) (dirExists : Bool)
    (maxSessions : JsNum) (env : SessionEnv) : Option (List SessionRecord) :=
  if dirExists then some (mainLoop parseFL maxSessions env) else none

/-- `getInitializerPrompt(projectSpec)`: the one prompt that interpolates
the project specification.  The static template text around the
interpolation is abridged to its opening words -- prompt content is outside
the orchestration core and no claim depends on it, only on where
`projectSpec` flows. -/
def initializerPromptHeader : String :=
  "You are setting up the environment for a long-running coding project. Your goal is to create the foundation that will enable incremental progress across many sessions.\n\n## Project Specification\n"

def initializerPromptFooter : String :=
  "\n\n## Your Tasks\n\n### 1. Create feature_list.json\n"

def getInitializerPrompt (projectSpec : String) : String :=
  initializerPromptHeader ++ projectSpec ++ initializerPromptFooter

/-- `getPlannerPrompt()`: a constant, no project-specification input
(text abridged, as above). -/
def getPlannerPrompt : String :=
  "You are in the PLANNING phase of a long-running coding project.\n"

/-- `getCoderPrompt()`: a constant, no project-specification input
(text abridged, as above). -/
def getCoderPrompt : String :=
  "You are continuing work on a long-running coding project.\n"

/-- `getPromptForPhase(phase, projectSpec)`: only the initializer branch
passes the project specification on. -/
def getPromptForPhase (phase : AgentPhase) (projectSpec : String) : String :=
  match phase with
  | .initializer => getInitializerPrompt projectSpec
  | .planner => getPlannerPrompt
  | .coder => getCoderPrompt

/-- Concrete document content: `\x7b"features":[]\x7d` (an empty feature list). -/
def emptyFeatureListJson : String := "\x7b\x22features\x22:[]\x7d"

/-- A demo feature that passes. -/
def passingFeature : Feature :=
  { category := "functional", description := "demo", steps := [], passes := true,
    priority := 1 }

/-- A demo feature that does not pass. -/
def failingFeature : Feature :=
  { category := "testing", description := "demo 2", steps := ["step 1"],
    passes := false, priority := 2 }

/-- Concrete document content for a single passing feature. -/
def onePassingFeatureJson : String :=
  "\x7b\x22features\x22:[\x7b\x22category\x22:\x22functional\x22,\x22description\x22:\x22demo\x22,\x22steps\x22:[],\x22passes\x22:true,\x22priority\x22:1\x7d]\x7d"

/-- Concrete document content for one passing and one failing feature. -/
def mixedFeatureJson : String :=
  "\x7b\x22features\x22:[\x7b\x22category\x22:\x22functional\x22,\x22description\x22:\x22demo\x22,\x22steps\x22:[],\x22passes\x22:true,\x22priority\x22:1\x7d,\x7b\x22category\x22:\x22testing\x22,\x22description\x22:\x22demo 2\x22,\x22steps\x22:[\x22step 1\x22],\x22passes\x22:false,\x22priority\x22:2\x7d]\x7d"

/-- A concrete `JSON.parse`-for-FeatureList oracle agreeing with the real
parser on the three demo documents above and failing on everything else. -/
def parseFLDemo : String → Option FeatureList := fun s =>
  if s = emptyFeatureListJson then some ⟨[]⟩
  else if s = onePassingFeatureJson then some ⟨[passingFeature]⟩
  else if s = mixedFeatureJson then some ⟨[passingFeature, failingFeature]⟩
  else none

/-- Disk with an (empty) feature list and no plan. -/
def emptyListDisk : DiskState :=
  { featureFileContent := some emptyFeatureListJson, planMd := false }

/-- Disk with a fully passing one-feature list and no plan. -/
def passingDisk : DiskState :=
  { featureFileContent := some onePassingFeatureJson, planMd := false }

/-- Disk with a half-passing list and no plan. -/
def mixedDisk : DiskState :=
  { featureFileContent := some mixedFeatureJson, planMd := false }

/-- Disk whose feature file holds text `JSON.parse` rejects. -/
def malformedDisk : DiskState :=
  { featureFileContent := some "garbage", planMd := false }

/-- Claim C9: `getProgress` is a pure fold over the feature list: `total` is
the feature count and `passing` the count of features with `passes` true,
hence `passing ≤ total`, and the result is invariant under permutation of
the features. -/
theorem getProgress_pure_fold (fl : FeatureList) :
    (getProgress fl).total = fl.features.length ∧
    (getProgress fl).passing = (fl.features.filter (fun f => f.passes)).length ∧
    (getProgress fl).passing ≤ (getProgress fl).total ∧
    ∀ l2 : List Feature, fl.features.Perm l2 → getProgress ⟨l2⟩ = getProgress fl := by
  refine ⟨rfl, rfl, List.length_filter_le _ _, ?_⟩
  intro l2 h
  unfold getProgress
  simp only [Progress.mk.injEq]
  exact ⟨((h.filter _).length_eq).symm, h.length_eq.symm⟩

/-- Witness for C9: permutation invariance at a concrete two-feature list. -/
theorem getProgress_pure_fold_witness :
    getProgress ⟨[failingFeature, passingFeature]⟩
      = getProgress ⟨[passingFeature, failingFeature]⟩ :=
  (getProgress_pure_fold ⟨[passingFeature, failingFeature]⟩).2.2.2
    [failingFeature, passingFeature] (by decide)

/-- Claim C3: `determinePhase` is deterministic (it is a pure function of the
probed disk state) and total: no valid feature list gives `initializer`,
a valid list without `plan.md` gives `planner`, a valid list with `plan.md`
gives `coder`; the two-phase variant gives `initializer` / `coder` / `coder`
on the same three combinations. -/
theorem determinePhase_total (parseFL : String → Option FeatureList)
    (d : DiskState) :
    ((readFeatureList parseFL d).fst = none →
       determinePhase parseFL d = AgentPhase.initializer) ∧
    (∀ fl, (readFeatureList parseFL d).fst = some fl → d.planMd = false →
       determinePhase parseFL d = AgentPhase.planner) ∧
    (∀ fl, (readFeatureList parseFL d).fst = some fl → d.planMd = true →
       determinePhase parseFL d = AgentPhase.coder) ∧
    ((readFeatureList parseFL d).fst = none →
       determinePhaseTwoPhase parseFL d = AgentPhase.initializer) ∧
    (∀ fl, (readFeatureList parseFL d).fst = some fl →
       determinePhaseTwoPhase parseFL d = AgentPhase.coder) := by
  refine ⟨?_, ?_, ?_, ?_, ?_⟩ <;>
    first
    | (intro h
       simp only [determinePhase, determinePhaseTwoPhase, h])
    | (intro fl h hp
       simp only [determinePhase, determinePhaseTwoPhase, h, planExists, hp]
       rfl)
    | (intro fl h
       simp only [determinePhaseTwoPhase, h])

/-- Witness for C3: the three combinations evaluated on concrete disks. -/
theorem determinePhase_total_witness :
    determinePhase parseFLDemo { featureFileContent := none, planMd := false }
        = AgentPhase.initializer ∧
    determinePhase parseFLDemo mixedDisk = AgentPhase.planner ∧
    determinePhase parseFLDemo { mixedDisk with planMd := true }
        = AgentPhase.coder ∧
    determinePhaseTwoPhase parseFLDemo mixedDisk = AgentPhase.coder :=
  ⟨(determinePhase_total parseFLDemo _).1 (by decide),
   (determinePhase_total parseFLDemo mixedDisk).2.1 ⟨[passingFeature, failingFeature]⟩
     (by decide) rfl,
   (determinePhase_total parseFLDemo _).2.2.1 ⟨[passingFeature, failingFeature]⟩
     (by decide) rfl,
   (determinePhase_total parseFLDemo mixedDisk).2.2.2.2 ⟨[passingFeature, failingFeature]⟩
     (by decide)⟩

/-- Claim C4: when the feature file exists but its content fails to parse,
`readFeatureList` returns the absent-marker after logging the diagnostic
line, no exception escapes (the function is total and returns normally),
and `determinePhase` resolves to `initializer`, identical to the
file-absent case. -/
theorem readFeatureList_parse_error (parseFL : String → Option FeatureList)
    (d : DiskState) (content : String)
    (hc : d.featureFileContent = some content) (hp : parseFL content = none) :
    readFeatureList parseFL d = (none, ["Failed to parse feature_list.json"]) ∧
    determinePhase parseFL d = AgentPhase.initializer ∧
    determinePhase parseFL d =
      determinePhase parseFL { featureFileContent := none, planMd := d.planMd } := by
  refine ⟨?_, ?_, ?_⟩
  · simp only [readFeatureList, hc, hp]
  · simp only [determinePhase, readFeatureList, hc, hp]
  · simp only [determinePhase, readFeatureList, hc, hp]

/-- Witness for C4: a concrete unparseable document. -/
theorem readFeatureList_parse_error_witness :
    readFeatureList parseFLDemo malformedDisk
        = (none, ["Failed to parse feature_list.json"]) ∧
    determinePhase parseFLDemo malformedDisk = AgentPhase.initializer :=
  ⟨(readFeatureList_parse_error parseFLDemo malformedDisk "garbage" rfl (by decide)).1,
   (readFeatureList_parse_error parseFLDemo malformedDisk "garbage" rfl (by decide)).2.1⟩

/-- Claim C8: for every phase other than `initializer` the prompt handed to
the agent is independent of the project specification, and the
`initializer` prompt does depend on it. -/
theorem getPromptForPhase_independence :
    (∀ phase : AgentPhase, phase ≠ AgentPhase.initializer →
       ∀ s1 s2 : String, getPromptForPhase phase s1 = getPromptForPhase phase s2) ∧
    (∃ s1 s2 : String,
       getPromptForPhase AgentPhase.initializer s1
         ≠ getPromptForPhase AgentPhase.initializer s2) := by
  constructor
  · intro phase h s1 s2
    cases phase with
    | initializer => exact absurd rfl h
    | planner => rfl
    | coder => rfl
  · exact ⟨"", "x", by decide⟩

/-- Witness for C8: planner and coder prompts coincide on two concrete
specifications. -/
theorem getPromptForPhase_independence_witness :
    getPromptForPhase AgentPhase.planner "spec one"
        = getPromptForPhase AgentPhase.planner "spec two" ∧
    getPromptForPhase AgentPhase.coder "spec one"
        = getPromptForPhase AgentPhase.coder "spec two" :=
  ⟨getPromptForPhase_independence.1 AgentPhase.planner (by decide) "spec one" "spec two",
   getPromptForPhase_independence.1 AgentPhase.coder (by decide) "spec one" "spec two"⟩

/-- Helper: the truncated display never exceeds the cap plus the three
ellipsis characters. -/
theorem truncateDisplay_length_le (cap : Nat) (s : String) :
    (truncateDisplay cap s).length ≤ cap + 3 := by
  unfold truncateDisplay
  split
  · rename_i h
    have h1 : (String.mk (s.data.take cap) ++ "...").length
        = (s.data.take cap).length + 3 := by
      rw [String.length_append]; rfl
    rw [h1]
    have := List.length_take_le cap s.data
    omega
  · rename_i h
    omega

/-- Claim C7: displayed tool inputs are truncated at 200 units and tool
results at 500 (non-verbose) or 2000 (verbose) units, each display string
never exceeding its cap plus the fixed "..." suffix, which is appended
exactly when truncation occurred; the renderers apply exactly these caps. -/
theorem truncation_law (cap : Nat) (s : String) (verbose : Bool)
    (name inputJson : String) (jp : String → Option Json) :
    (truncateDisplay cap s).length ≤ cap + 3 ∧
    (s.length ≤ cap → truncateDisplay cap s = s) ∧
    (cap < s.length → truncateDisplay cap s = String.mk (s.data.take cap) ++ "...") ∧
    resultDisplayCap true = 2000 ∧
    resultDisplayCap false = 500 ∧
    (truncateDisplay 200 inputJson).length ≤ 200 + 3 ∧
    (truncateDisplay (resultDisplayCap verbose) s).length ≤ resultDisplayCap verbose + 3 ∧
    renderAssistantBlock (ContentBlock.toolUse name inputJson)
        = ["[tool] " ++ name ++ " " ++ truncateDisplay 200 inputJson] ∧
    renderUserBlock jp verbose (UserContentBlock.toolResult s)
        = [truncateDisplay (resultDisplayCap verbose) (unwrapToolResult jp s)] := by
  refine ⟨truncateDisplay_length_le cap s, ?_, ?_, rfl, rfl,
    truncateDisplay_length_le 200 inputJson,
    truncateDisplay_length_le (resultDisplayCap verbose) s, rfl, rfl⟩
  · intro h
    unfold truncateDisplay
    split
    · rename_i hgt; omega
    · rfl
  · intro h
    unfold truncateDisplay
    split
    · rfl
    · rename_i hle; omega

/-- Witness for C7: both truncation branches at concrete strings. -/
theorem truncation_law_witness :
    truncateDisplay 3 "ab" = "ab" ∧
    truncateDisplay 3 "abcdef" = String.mk ("abcdef".data.take 3) ++ "..." :=
  ⟨(truncation_law 3 "ab" false "n" "i" (fun _ => none)).2.1 (by decide),
   (truncation_law 3 "abcdef" false "n" "i" (fun _ => none)).2.2.1 (by decide)⟩

/-- Claim C2: `runAgent` returns `false` exactly when an exception was
raised while establishing or iterating the stream, in which case the error
message (and the stack trace when verbose) is reported; a stream consumed
to its natural end returns `true` regardless of the events received, and a
terminal result event with a non-"success" subtype only produces an error
line plus each enumerated error message. -/
theorem runAgent_failure_signal (jp : String → Option Json)
    (events : List SdkMessage) (thrown : Option JsError) (verbose : Bool) :
    ((runAgent jp events thrown verbose).fst = false ↔ thrown ≠ none) ∧
    (thrown = none → (runAgent jp events thrown verbose).fst = true) ∧
    (∀ e, thrown = some e →
       ("Error: " ++ e.message) ∈ (runAgent jp events thrown verbose).snd ∧
       (verbose = true → ∀ st, e.stack = some st →
          ("Stack: " ++ st) ∈ (runAgent jp events thrown verbose).snd)) ∧
    (∀ subtype numTurns costUsd errors, subtype ≠ "success" →
       ("[result] Error: " ++ subtype)
           ∈ handleMessage jp verbose (SdkMessage.result subtype numTurns costUsd errors) ∧
       (∀ err, err ∈ errors.getD [] →
          ("  " ++ err)
              ∈ handleMessage jp verbose (SdkMessage.result subtype numTurns costUsd errors))) := by
  refine ⟨?_, ?_, ?_, ?_⟩
  · cases thrown <;> simp [runAgent]
  · intro h; subst h; rfl
  · intro e he
    subst he
    constructor
    · simp [runAgent, List.mem_append]
    · intro hv st hst
      subst hv
      simp [runAgent, List.mem_append, hst]
  · intro subtype numTurns costUsd errors hsub
    constructor
    · simp [handleMessage, hsub, List.mem_append]
    · intro err herr
      simp only [handleMessage, if_neg hsub, List.mem_append, List.mem_cons]
      right
      right
      exact List.mem_map_of_mem _ herr

/-- Witness for C2: a mid-stream exception after a non-success result event
still reports the error and returns `false`; without the exception the same
events return `true`. -/
theorem runAgent_failure_signal_witness :
    (runAgent (fun _ => none) [SdkMessage.result "error_during_execution" 0 "0" none]
        (some ⟨"boom", some "trace"⟩) true).fst = false ∧
    ("Error: boom") ∈ (runAgent (fun _ => none)
        [SdkMessage.result "error_during_execution" 0 "0" none]
        (some ⟨"boom", some "trace"⟩) true).snd ∧
    ("Stack: trace") ∈ (runAgent (fun _ => none)
        [SdkMessage.result "error_during_execution" 0 "0" none]
        (some ⟨"boom", some "trace"⟩) true).snd ∧
    (runAgent (fun _ => none) [SdkMessage.result "error_during_execution" 0 "0" none]
        none true).fst = true ∧
    ("[result] Error: error_during_execution") ∈ handleMessage (fun _ => none) true
        (SdkMessage.result "error_during_execution" 0 "0" none) :=
  ⟨(runAgent_failure_signal (fun _ => none) _ _ true).1.mpr (by decide),
   ((runAgent_failure_signal (fun _ => none)
       [SdkMessage.result "error_during_execution" 0 "0" none]
       (some ⟨"boom", some "trace"⟩) true).2.2.1 ⟨"boom", some "trace"⟩ rfl).1,
   ((runAgent_failure_signal (fun _ => none)
       [SdkMessage.result "error_during_execution" 0 "0" none]
       (some ⟨"boom", some "trace"⟩) true).2.2.1 ⟨"boom", some "trace"⟩ rfl).2 rfl "trace" rfl,
   (runAgent_failure_signal (fun _ => none)
       [SdkMessage.result "error_during_execution" 0 "0" none] none true).2.1 rfl,
   ((runAgent_failure_signal (fun _ => none)
       [SdkMessage.result "error_during_execution" 0 "0" none] none true).2.2.2
       "error_during_execution" 0 "0" none (by decide)).1⟩

/-- Replacement condition following the spec's words for the tool-result
unwrap (for comparison with the source behaviour): one layer of JSON
parsing yields either a ONE-element array whose item's `text` field itself
parses as JSON with an `output` field, or a direct object with an `output`
field. -/
def specUnwrapReplaceCondition (jsonParse : String → Option Json)
    (resultStr : String) : Prop :=
  ∃ v, jsonParse resultStr = some v ∧
    ((∃ item t inner ov, v = Json.arr [item] ∧ item.getField "text" = some t ∧
        jsonParse t.jsString = some inner ∧ inner.getField "output" = some ov) ∨
     (∃ ov, v.getField "output" = some ov))

/-- Raw tool-result content whose outer JSON is a TWO-element array, first
element text `\x7b"output":"output: hi"\x7d`; the word `output:` inside the
payload satisfies the `includes` guard. -/
def cexOuterStr : String :=
  "[\x7b\x22text\x22:\x22\x7b\x5c\x22output\x5c\x22:\x5c\x22output: hi\x5c\x22\x7d\x22\x7d,\x7b\x22text\x22:\x22x\x22\x7d]"

/-- The first element's `text` value of `cexOuterStr`. -/
def cexInnerStr : String :=
  "\x7b\x22output\x22:\x22output: hi\x22\x7d"

/-- A plain-object tool result `\x7b"output":"hello"\x7d`. -/
def directObjStr : String :=
  "\x7b\x22output\x22:\x22hello\x22\x7d"

/-- What `JSON.parse` returns on `cexOuterStr`. -/
def cexParsedOuter : Json :=
  Json.arr [Json.obj [("text", Json.str cexInnerStr)],
            Json.obj [("text", Json.str "x")]]

/-- A concrete `JSON.parse` oracle agreeing with the real parser on the
three demo documents above and throwing on everything else. -/
def jsonParseDemo : String → Option Json := fun s =>
  if s = cexOuterStr then some cexParsedOuter
  else if s = cexInnerStr then some (Json.obj [("output", Json.str "output: hi")])
  else if s = directObjStr then some (Json.obj [("output", Json.str "hello")])
  else none

/-- Helper: when the direct arm changes the string, the parsed value has an
`output` field and the result is its `|| "(empty)"` display. -/
theorem unwrapDirect_change (parsed : Json) (s : String)
    (h : unwrapDirect parsed s ≠ s) :
    ∃ ov, parsed.getField "output" = some ov ∧ unwrapDirect parsed s = jsOrEmpty ov := by
  cases hov : parsed.getField "output" with
  | none =>
    exfalso
    apply h
    simp only [unwrapDirect, hov]
  | some ov =>
    refine ⟨ov, rfl, ?_⟩
    simp only [unwrapDirect, hov]

/-- Helper: when the array-text arm changes the string, the inner parse
succeeded with an `output` field and the result is its display. -/
theorem unwrapArrayText_change (jp : String → Option Json) (s : String)
    (t : Json) (h : unwrapArrayText jp s t ≠ s) :
    ∃ inner ov, jp t.jsString = some inner ∧ inner.getField "output" = some ov ∧
      unwrapArrayText jp s t = jsOrEmpty ov := by
  cases hin : jp t.jsString with
  | none =>
    exfalso
    apply h
    simp only [unwrapArrayText, hin]
  | some inner =>
    cases hov : inner.getField "output" with
    | none =>
      exfalso
      apply h
      simp only [unwrapArrayText, hin, hov]
    | some ov =>
      refine ⟨inner, ov, rfl, hov, ?_⟩
      simp only [unwrapArrayText, hin, hov]

/-- Helper: where the dispatch on the parsed value can change the string. -/
theorem unwrapParsed_change (jp : String → Option Json) (s : String)
    (parsed : Json) (h : unwrapParsed jp s parsed ≠ s) :
    (∃ first rest t inner ov, parsed = Json.arr (first :: rest) ∧
       first.getField "text" = some t ∧ t.truthy = true ∧
       jp t.jsString = some inner ∧ inner.getField "output" = some ov ∧
       unwrapParsed jp s parsed = jsOrEmpty ov) ∨
    (∃ ov, parsed.getField "output" = some ov ∧
       unwrapParsed jp s parsed = jsOrEmpty ov) := by
  match parsed with
  | .null | .bool _ | .num _ | .str _ | .obj _ | .arr [] =>
    right
    exact unwrapDirect_change _ s h
  | .arr (first :: rest) =>
    cases ht : first.getField "text" with
    | none =>
      right
      have hrw : unwrapParsed jp s (Json.arr (first :: rest))
          = unwrapDirect (Json.arr (first :: rest)) s := by
        simp only [unwrapParsed, ht]
      rw [hrw] at h
      obtain ⟨ov, h1, h2⟩ := unwrapDirect_change _ s h
      exact ⟨ov, h1, hrw.trans h2⟩
    | some t =>
      by_cases htr : t.truthy = true
      · have hrw : unwrapParsed jp s (Json.arr (first :: rest))
            = unwrapArrayText jp s t := by
          simp only [unwrapParsed, ht]
          rw [if_pos htr]
        rw [hrw] at h
        obtain ⟨inner, ov, h1, h2, h3⟩ := unwrapArrayText_change jp s t h
        exact Or.inl ⟨first, rest, t, inner, ov, rfl, ht, htr, h1, h2, hrw.trans h3⟩
      · have hrw : unwrapParsed jp s (Json.arr (first :: rest))
            = unwrapDirect (Json.arr (first :: rest)) s := by
          simp only [unwrapParsed, ht]
          rw [if_neg htr]
        rw [hrw] at h
        right
        obtain ⟨ov, h1, h2⟩ := unwrapDirect_change _ s h
        exact ⟨ov, h1, hrw.trans h2⟩

/-- Amended claim C6: the unwrap is a total function that never affects the
session outcome (`runAgent`'s boolean depends only on whether the stream
threw); on any outer parse failure the original string is kept; and the
displayed string is replaced only when one layer of JSON parsing yields
either a NONEMPTY array whose FIRST item's truthy `text` field itself
parses as JSON with an `output` field, or a direct object with an `output`
field -- substituting "(empty)" when the replacement value is falsy. -/
theorem unwrap_total_cosmetic (jp : String → Option Json) (s : String) :
    (jp s = none → unwrapToolResult jp s = s) ∧
    (unwrapToolResult jp s ≠ s → ∃ v, jp s = some v ∧
       ((∃ first rest t inner ov, v = Json.arr (first :: rest) ∧
           first.getField "text" = some t ∧ t.truthy = true ∧
           jp t.jsString = some inner ∧ inner.getField "output" = some ov ∧
           unwrapToolResult jp s = jsOrEmpty ov) ∨
        (∃ ov, v.getField "output" = some ov ∧
           unwrapToolResult jp s = jsOrEmpty ov))) ∧
    (∀ events thrown verbose,
       (runAgent jp events thrown verbose).fst = thrown.isNone) := by
  refine ⟨?_, ?_, ?_⟩
  · intro h
    unfold unwrapToolResult
    split
    · rw [h]
    · rfl
  · intro hne
    by_cases hg : (containsSubstr s "\x22output\x22" || containsSubstr s "output:") = true
    · have hu : unwrapToolResult jp s =
          (match jp s with
           | none => s
           | some parsed => unwrapParsed jp s parsed) := by
        unfold unwrapToolResult
        rw [if_pos hg]
      cases hjp : jp s with
      | none =>
        rw [hu, hjp] at hne
        exact absurd rfl hne
      | some parsed =>
        rw [hu, hjp] at hne ⊢
        exact ⟨parsed, rfl, unwrapParsed_change jp s parsed hne⟩
    · exfalso
      apply hne
      unfold unwrapToolResult
      rw [if_neg hg]
  · intro events thrown verbose
    cases thrown <;> rfl

/-- Counterexample to claim C6 as stated: on a tool-result string whose
outer JSON is a TWO-element array (first item's `text` parsing to JSON with
an `output` field), the code replaces the displayed string, yet the claim's
"one-element array ... or direct object" condition does not hold. -/
theorem unwrap_one_element_cex :
    unwrapToolResult jsonParseDemo cexOuterStr = "output: hi" ∧
    unwrapToolResult jsonParseDemo cexOuterStr ≠ cexOuterStr ∧
    ¬ specUnwrapReplaceCondition jsonParseDemo cexOuterStr := by
  refine ⟨by decide, by decide, ?_⟩
  rintro ⟨v, hv, hcond⟩
  have h0 : jsonParseDemo cexOuterStr = some cexParsedOuter := rfl
  rw [h0] at hv
  injection hv with hv'
  subst hv'
  rcases hcond with ⟨item, t, inner, ov, harr, -, -, -⟩ | ⟨ov, hov⟩
  · unfold cexParsedOuter at harr
    injection harr with hlist
    simp at hlist
  · simp [cexParsedOuter, Json.getField] at hov

/-- Witness for the amended C6: a parse failure keeps the original string
and the stream outcome ignores event contents. -/
theorem unwrap_total_cosmetic_witness :
    unwrapToolResult jsonParseDemo "no json output: here" = "no json output: here" ∧
    (runAgent jsonParseDemo [SdkMessage.user [UserContentBlock.toolResult cexOuterStr]]
        none false).fst = true :=
  ⟨(unwrap_total_cosmetic jsonParseDemo "no json output: here").1 rfl,
   (unwrap_total_cosmetic jsonParseDemo "no json output: here").2.2
     [SdkMessage.user [UserContentBlock.toolResult cexOuterStr]] none false⟩

/-- Equation: the failed-session iteration tail. -/
theorem sessionStep_false_eq (parseFL : String → Option FeatureList)
    (d : DiskState) :
    sessionStep parseFL false d =
      { retryNotice := true, progressLine := none, completionAnnounced := false,
        notified := false, pauseMs := 5000, breakLoop := false } := rfl

/-- Equation: a successful session with no readable feature list. -/
theorem sessionStep_true_none_eq (parseFL : String → Option FeatureList)
    (d : DiskState) (hr : (readFeatureList parseFL d).fst = none) :
    sessionStep parseFL true d =
      { retryNotice := false, progressLine := none, completionAnnounced := false,
        notified := false, pauseMs := 2000, breakLoop := false } := by
  simp [sessionStep, hr]

/-- Equation: a successful session with a fully passing feature list. -/
theorem sessionStep_true_complete_eq (parseFL : String → Option FeatureList)
    (d : DiskState) (fl : FeatureList)
    (hr : (readFeatureList parseFL d).fst = some fl)
    (hp : (getProgress fl).passing = (getProgress fl).total) :
    sessionStep parseFL true d =
      { retryNotice := false, progressLine := some (getProgress fl),
        completionAnnounced := true, notified := true, pauseMs := 0,
        breakLoop := true } := by
  simp [sessionStep, hr, hp]

/-- Equation: a successful session with an incomplete feature list. -/
theorem sessionStep_true_incomplete_eq (parseFL : String → Option FeatureList)
    (d : DiskState) (fl : FeatureList)
    (hr : (readFeatureList parseFL d).fst = some fl)
    (hp : (getProgress fl).passing ≠ (getProgress fl).total) :
    sessionStep parseFL true d =
      { retryNotice := false, progressLine := some (getProgress fl),
        completionAnnounced := false, notified := false, pauseMs := 2000,
        breakLoop := false } := by
  simp [sessionStep, hr, hp]

/-- Counterexample to claim C1 as stated: after a successful session with an
EMPTY feature list on disk (`passing == total == 0`), the orchestrator
announces completion, fires the notification, and breaks the loop -- there
is no `total > 0` guard in the code. -/
theorem completion_empty_list_cex :
    (sessionStep parseFLDemo true emptyListDisk).breakLoop = true ∧
    (sessionStep parseFLDemo true emptyListDisk).completionAnnounced = true ∧
    (sessionStep parseFLDemo true emptyListDisk).notified = true ∧
    (readFeatureList parseFLDemo emptyListDisk).fst = some ⟨[]⟩ ∧
    (getProgress ⟨[]⟩).total = 0 := by
  refine ⟨by decide, by decide, by decide, by decide, rfl⟩

/-- Amended claim C1: after a session, the orchestrator announces
completion, notifies and terminates the loop if and only if the session
succeeded and the feature list read back with `passing == total` --
INCLUDING the vacuous `total == 0` case (no emptiness guard exists). -/
theorem completion_check_amended (parseFL : String → Option FeatureList)
    (success : Bool) (d : DiskState) :
    ((sessionStep parseFL success d).breakLoop = true ↔
       (success = true ∧ ∃ fl, (readFeatureList parseFL d).fst = some fl ∧
          (getProgress fl).passing = (getProgress fl).total)) ∧
    ((sessionStep parseFL success d).completionAnnounced
       = (sessionStep parseFL success d).breakLoop) ∧
    ((sessionStep parseFL success d).notified
       = (sessionStep parseFL success d).breakLoop) ∧
    (∀ (maxS : JsNum) (env : SessionEnv) (fuel n : Nat) (dB dA : DiskState),
       env n = (dB, success, dA) → jsLe n maxS = true →
       (sessionStep parseFL success dA).breakLoop = true →
       mainLoopGo parseFL maxS env (fuel + 1) n =
         [{ session := n, phase := determinePhase parseFL dB,
            success := success, outcome := sessionStep parseFL success dA }]) := by
  have hmain : (sessionStep parseFL success d).breakLoop = true ↔
      (success = true ∧ ∃ fl, (readFeatureList parseFL d).fst = some fl ∧
         (getProgress fl).passing = (getProgress fl).total) := by
    cases success with
    | false =>
      rw [sessionStep_false_eq]
      simp
    | true =>
      cases hr : (readFeatureList parseFL d).fst with
      | none =>
        rw [sessionStep_true_none_eq parseFL d hr]
        simp [hr]
      | some fl =>
        by_cases hp : (getProgress fl).passing = (getProgress fl).total
        · rw [sessionStep_true_complete_eq parseFL d fl hr hp]
          exact ⟨fun _ => ⟨rfl, fl, rfl, hp⟩, fun _ => rfl⟩
        · rw [sessionStep_true_incomplete_eq parseFL d fl hr hp]
          simp only [hr]
          constructor
          · intro h; exact absurd h (by decide)
          · rintro ⟨-, fl2, hfl2, hp2⟩
            injection hfl2 with he
            subst he
            exact absurd hp2 hp
  have hsame : (sessionStep parseFL success d).completionAnnounced
        = (sessionStep parseFL success d).breakLoop ∧
      (sessionStep parseFL success d).notified
        = (sessionStep parseFL success d).breakLoop := by
    cases success with
    | false => rw [sessionStep_false_eq]; exact ⟨rfl, rfl⟩
    | true =>
      cases hr : (readFeatureList parseFL d).fst with
      | none => rw [sessionStep_true_none_eq parseFL d hr]; exact ⟨rfl, rfl⟩
      | some fl =>
        by_cases hp : (getProgress fl).passing = (getProgress fl).total
        · rw [sessionStep_true_complete_eq parseFL d fl hr hp]; exact ⟨rfl, rfl⟩
        · rw [sessionStep_true_incomplete_eq parseFL d fl hr hp]; exact ⟨rfl, rfl⟩
  refine ⟨hmain, hsame.1, hsame.2, ?_⟩
  intro maxS env fuel n dB dA henv hle hbreak
  simp only [mainLoopGo, hle, if_true, henv, hbreak]

/-- Witness for the amended C1: a fully passing one-feature list after a
successful first session terminates the loop with exactly one session
record. -/
theorem completion_check_amended_witness :
    mainLoopGo parseFLDemo (JsNum.int 50)
        (fun _ => (passingDisk, true, passingDisk)) 4 1 =
      [{ session := 1, phase := determinePhase parseFLDemo passingDisk,
         success := true, outcome := sessionStep parseFLDemo true passingDisk }] :=
  (completion_check_amended parseFLDemo true passingDisk).2.2.2
    (JsNum.int 50) (fun _ => (passingDisk, true, passingDisk)) 3 1
    passingDisk passingDisk rfl (by decide) (by decide)

/-- Claim C5: a failed session emits the retry notice, pauses the fixed
5000 ms backoff (strictly greater than the 2000 ms pacing pause after a
successful-but-incomplete session), never re-reads progress, can never
announce, notify, or break the loop, and still consumes exactly one budget
slot before the loop continues at the next session index. -/
theorem failed_session_backoff (parseFL : String → Option FeatureList)
    (d : DiskState) :
    (sessionStep parseFL false d).retryNotice = true ∧
    (sessionStep parseFL false d).pauseMs = 5000 ∧
    (sessionStep parseFL false d).progressLine = none ∧
    (sessionStep parseFL false d).completionAnnounced = false ∧
    (sessionStep parseFL false d).notified = false ∧
    (sessionStep parseFL false d).breakLoop = false ∧
    (∀ d2 : DiskState, (sessionStep parseFL true d2).breakLoop = false →
       (sessionStep parseFL true d2).pauseMs = 2000 ∧
       (sessionStep parseFL true d2).pauseMs < (sessionStep parseFL false d).pauseMs) ∧
    (∀ (maxS : JsNum) (env : SessionEnv) (fuel n : Nat) (dB dA : DiskState),
       env n = (dB, false, dA) → jsLe n maxS = true →
       mainLoopGo parseFL maxS env (fuel + 1) n =
         { session := n, phase := determinePhase parseFL dB, success := false,
           outcome := sessionStep parseFL false dA } ::
           mainLoopGo parseFL maxS env fuel (n + 1)) := by
  refine ⟨rfl, rfl, rfl, rfl, rfl, rfl, ?_, ?_⟩
  · intro d2 hnb
    have hpause : (sessionStep parseFL true d2).pauseMs = 2000 := by
      cases hr : (readFeatureList parseFL d2).fst with
      | none => rw [sessionStep_true_none_eq parseFL d2 hr]
      | some fl =>
        by_cases hp : (getProgress fl).passing = (getProgress fl).total
        · exfalso
          rw [sessionStep_true_complete_eq parseFL d2 fl hr hp] at hnb
          exact Bool.noConfusion hnb
        · rw [sessionStep_true_incomplete_eq parseFL d2 fl hr hp]
    refine ⟨hpause, ?_⟩
    rw [hpause, sessionStep_false_eq]
    decide
  · intro maxS env fuel n dB dA henv hle
    simp only [mainLoopGo, hle, if_true, henv]
    rfl

/-- Witness for C5: a concrete failed session consumes slot 1 and the loop
continues at session 2. -/
theorem failed_session_backoff_witness :
    (sessionStep parseFLDemo false mixedDisk).pauseMs = 5000 ∧
    (sessionStep parseFLDemo true mixedDisk).pauseMs = 2000 ∧
    mainLoopGo parseFLDemo (JsNum.int 2)
        (fun _ => (mixedDisk, false, mixedDisk)) 2 1 =
      { session := 1, phase := determinePhase parseFLDemo mixedDisk,
        success := false, outcome := sessionStep parseFLDemo false mixedDisk } ::
        mainLoopGo parseFLDemo (JsNum.int 2)
          (fun _ => (mixedDisk, false, mixedDisk)) 1 2 :=
  ⟨(failed_session_backoff parseFLDemo mixedDisk).2.1,
   ((failed_session_backoff parseFLDemo mixedDisk).2.2.2.2.2.2.1 mixedDisk
      (by decide)).1,
   (failed_session_backoff parseFLDemo mixedDisk).2.2.2.2.2.2.2
     (JsNum.int 2) (fun _ => (mixedDisk, false, mixedDisk)) 1 1
     mixedDisk mixedDisk rfl (by decide)⟩

/-- Claim C10: with a `maxSessions` bound below 1 -- including the `NaN`
`parseInt` produces on a non-numeric `--max-sessions` argument -- the JS
loop guard is false at `session = 1`, so the loop body never executes (no
session record, hence no phase resolution, no agent run, no pause) and
`main` still runs to its finish banner normally (`some` run with an empty
session list). -/
theorem loop_body_never_executes (parseFL : String → Option FeatureList)
    (env : SessionEnv) (maxS : JsNum)
    (h : maxS = JsNum.nan ∨ ∃ k : Int, maxS = JsNum.int k ∧ k < 1) :
    (∀ fuel : Nat, mainLoopGo parseFL maxS env fuel 1 = []) ∧
    mainLoop parseFL maxS env = [] ∧
    mainModel parseFL true maxS env = some [] := by
  have hguard : jsLe 1 maxS = false := by
    rcases h with h | ⟨k, hk, hlt⟩
    · subst h; rfl
    · subst hk
      simp only [jsLe, decide_eq_false_iff_not, not_le]
      exact_mod_cast hlt
  have hgo : ∀ fuel : Nat, mainLoopGo parseFL maxS env fuel 1 = [] := by
    intro fuel
    cases fuel with
    | zero => rfl
    | succ fuel' => simp only [mainLoopGo, hguard, if_false, Bool.false_eq_true]
  refine ⟨hgo, hgo (loopFuel maxS), ?_⟩
  simp only [mainModel, mainLoop, hgo (loopFuel maxS), if_true]

/-- Witness for C10: `parseInt` on a non-numeric argument yields `NaN` and
the loop runs zero sessions while `main` completes normally. -/
theorem loop_body_never_executes_witness :
    parseIntJs "not-a-number" = JsNum.nan ∧
    mainLoop parseFLDemo (parseIntJs "not-a-number")
        (fun _ => (mixedDisk, true, mixedDisk)) = [] ∧
    mainModel parseFLDemo true (parseIntJs "not-a-number")
        (fun _ => (mixedDisk, true, mixedDisk)) = some [] :=
  ⟨by decide,
   (loop_body_never_executes parseFLDemo (fun _ => (mixedDisk, true, mixedDisk))
      (parseIntJs "not-a-number") (Or.inl (by decide))).2.1,
   (loop_body_never_executes parseFLDemo (fun _ => (mixedDisk, true, mixedDisk))
      (parseIntJs "not-a-number") (Or.inl (by decide))).2.2⟩
